import Mathlib

set_option maxRecDepth 10000

/-!
Shallow embedding of the process-identity and container-scoping subsystem of
ebpH (`src/ebph/utils.py`): profile-key calculation, the blake2b-based scoped
key hash, proc-filesystem parsing and the container-id heuristic chain.

OS queries (`os.stat`, `os.readlink`, reading `/proc/<pid>/cgroup`) are
modelled as explicit parameters: a stat function `String → Option (Nat × Nat)`
(device, inode; `none` = the OS call raised), an `Except OsError String` for a
symlink read, and an `Option String` for a proc file read.  Machine integers
are `Nat` with explicit reduction modulo `2 ^ 64` where the hash needs it;
Python integers are unbounded, so `st_dev << 32 | st_ino` carries no mask.
-/

namespace Ebph

/-! ### 64-bit word arithmetic on `Nat` -/

def M64 : Nat := 2 ^ 64

def add64 (a b : Nat) : Nat := (a + b) % M64

def xor64 (a b : Nat) : Nat := Nat.xor a b

/-- Rotate a 64-bit word right by `n` bits (`0 < n < 64`, input below `2 ^ 64`). -/
def rotr64 (x n : Nat) : Nat := Nat.lor (x / 2 ^ n) (x % 2 ^ n * 2 ^ (64 - n))

/-! ### BLAKE2b (RFC 7693), sequential mode, no key — the construction behind
the Python hashlib blake2b construction with digest size 8 that `hash_to_u64` uses. -/

def blakeIV : List Nat :=
  [0x6a09e667f3bcc908, 0xbb67ae8584caa73b, 0x3c6ef372fe94f82b, 0xa54ff53a5f1d36f1,
   0x510e527fade682d1, 0x9b05688c2b3e6c1f, 0x1f83d9abfb41bd6b, 0x5be0cd19137e2179]

def blakeSigma : List (List Nat) :=
  [[0, 1, 2, 3, 4, 5, 6, 7, 8, 9, 10, 11, 12, 13, 14, 15],
   [14, 10, 4, 8, 9, 15, 13, 6, 1, 12, 0, 2, 11, 7, 5, 3],
   [11, 8, 12, 0, 5, 2, 15, 13, 10, 14, 3, 6, 7, 1, 9, 4],
   [7, 9, 3, 1, 13, 12, 11, 14, 2, 6, 5, 10, 4, 0, 15, 8],
   [9, 0, 5, 7, 2, 4, 10, 15, 14, 1, 11, 12, 6, 8, 3, 13],
   [2, 12, 6, 10, 0, 11, 8, 3, 4, 13, 7, 5, 15, 14, 1, 9],
   [12, 5, 1, 15, 14, 13, 4, 10, 0, 7, 6, 3, 9, 2, 8, 11],
   [13, 11, 7, 14, 12, 1, 3, 9, 5, 0, 15, 4, 8, 6, 2, 10],
   [6, 15, 14, 9, 11, 3, 0, 8, 12, 2, 13, 7, 1, 4, 10, 5],
   [10, 2, 8, 4, 7, 6, 1, 5, 15, 11, 9, 14, 3, 12, 13, 0]]

/-- The `G` mixing function of BLAKE2b on a 16-word working vector. -/
def gMix (v : List Nat) (a b c d x y : Nat) : List Nat :=
  let va1 := add64 (add64 (v.getD a 0) (v.getD b 0)) x
  let vd1 := rotr64 (xor64 (v.getD d 0) va1) 32
  let vc1 := add64 (v.getD c 0) vd1
  let vb1 := rotr64 (xor64 (v.getD b 0) vc1) 24
  let va2 := add64 (add64 va1 vb1) y
  let vd2 := rotr64 (xor64 vd1 va2) 16
  let vc2 := add64 vc1 vd2
  let vb2 := rotr64 (xor64 vb1 vc2) 63
  (((v.set a va2).set b vb2).set c vc2).set d vd2

/-- One of the 12 BLAKE2b rounds; `i` selects the message-word permutation. -/
def blakeRound (m : List Nat) (v : List Nat) (i : Nat) : List Nat :=
  let s := blakeSigma.getD (i % 10) []
  let mAt := fun j => m.getD (s.getD j 0) 0
  let v1 := gMix v 0 4 8 12 (mAt 0) (mAt 1)
  let v2 := gMix v1 1 5 9 13 (mAt 2) (mAt 3)
  let v3 := gMix v2 2 6 10 14 (mAt 4) (mAt 5)
  let v4 := gMix v3 3 7 11 15 (mAt 6) (mAt 7)
  let v5 := gMix v4 0 5 10 15 (mAt 8) (mAt 9)
  let v6 := gMix v5 1 6 11 12 (mAt 10) (mAt 11)
  let v7 := gMix v6 2 7 8 13 (mAt 12) (mAt 13)
  gMix v7 3 4 9 14 (mAt 14) (mAt 15)

/-- Little-endian interpretation of a byte list as one word. -/
def bytesToWordLE (bs : List Nat) : Nat := bs.foldr (fun b acc => acc * 256 + b) 0

/-- Split a 128-byte block into 16 little-endian 64-bit words. -/
def blockWords (block : List Nat) : List Nat :=
  (List.range 16).map (fun i => bytesToWordLE ((block.drop (8 * i)).take 8))

/-- The BLAKE2b compression function `F(h, m, t, f)`. -/
def blakeCompress (h : List Nat) (block : List Nat) (t : Nat) (last : Bool) : List Nat :=
  let m := blockWords block
  let v0 := h ++ blakeIV
  let v1 := v0.set 12 (xor64 (v0.getD 12 0) (t % M64))
  let v2 := v1.set 13 (xor64 (v1.getD 13 0) (t / M64))
  let v3 := if last then v2.set 14 (xor64 (v2.getD 14 0) (M64 - 1)) else v2
  let vf := (List.range 12).foldl (blakeRound m) v3
  (List.range 8).map (fun i => xor64 (xor64 (h.getD i 0) (vf.getD i 0)) (vf.getD (i + 8) 0))

/-- Zero-pad a final partial block to 128 bytes. -/
def padBlock (bs : List Nat) : List Nat := bs ++ List.replicate (128 - bs.length) 0

/-- Process the message 128 bytes at a time.  The first argument is fuel
(`msg.length / 128 + 1` at the top-level call suffices, since every recursive
step consumes exactly 128 bytes); structural recursion on the fuel keeps the
definition kernel-reducible. -/
def blakeLoop : Nat → List Nat → Nat → List Nat → List Nat
  | 0, h, t, msg => blakeCompress h (padBlock msg) (t + msg.length) true
  | fuel + 1, h, t, msg =>
    if msg.length ≤ 128 then blakeCompress h (padBlock msg) (t + msg.length) true
    else blakeLoop fuel (blakeCompress h (msg.take 128) (t + 128) false) (t + 128) (msg.drop 128)

/-- Little-endian bytes of one 64-bit word. -/
def wordToBytesLE (w : Nat) : List Nat := (List.range 8).map (fun i => w / 2 ^ (8 * i) % 256)

/-- BLAKE2b digest of `msg` with output length `outlen` bytes, unkeyed,
sequential mode (`fanout = depth = 1`), as `hashlib.blake2b(digest_size=outlen)`
computes it: `h0` is `IV0 xor 0x0101kknn` with `kk = 0` and `nn = outlen`. -/
def blake2b (outlen : Nat) (msg : List Nat) : List Nat :=
  let h0 := blakeIV.set 0 (xor64 (xor64 (blakeIV.getD 0 0) 0x01010000) outlen)
  let h := blakeLoop (msg.length / 128 + 1) h0 0 msg
  ((h.map wordToBytesLE).flatten).take outlen

/-! ### UTF-8 encoding and Python `str()` of the hash input parts -/

/-- UTF-8 encoding of one code point. -/
def utf8Char (n : Nat) : List Nat :=
  if n < 0x80 then [n]
  else if n < 0x800 then [0xc0 + n / 0x40, 0x80 + n % 0x40]
  else if n < 0x10000 then [0xe0 + n / 0x1000, 0x80 + n / 0x40 % 0x40, 0x80 + n % 0x40]
  else [0xf0 + n / 0x40000, 0x80 + n / 0x1000 % 0x40, 0x80 + n / 0x40 % 0x40, 0x80 + n % 0x40]

/-- UTF-8 bytes of a string, as the encode method of Python str produces them. -/
def utf8 (s : String) : List Nat := (s.data.map (fun c => utf8Char c.toNat)).flatten

/-- A member of the hash input tuple: Python `Union[str, int]`. -/
inductive StrInt where
  | s (v : String)
  | i (v : Int)

/-- Python `str(part)`: a string unchanged, an integer in decimal. -/
def StrInt.str : StrInt → String
  | .s v => v
  | .i v => toString v

/-! ### `hash_to_u64` and the profile keys (`src/ebph/utils.py:82-100`) -/

/-- State of an incremental `hashlib.blake2b` object: the requested digest
size and the bytes fed so far (`update` appends; `digest` hashes the whole). -/
structure Blake2bCtx where
  digestSize : Nat
  buf : List Nat

def Blake2bCtx.init (digestSize : Nat) : Blake2bCtx := ⟨digestSize, []⟩

def Blake2bCtx.update (ctx : Blake2bCtx) (bs : List Nat) : Blake2bCtx :=
  ⟨ctx.digestSize, ctx.buf ++ bs⟩

def Blake2bCtx.digest (ctx : Blake2bCtx) : List Nat := blake2b ctx.digestSize ctx.buf

/-- Big-endian interpretation of a byte list
(int.from_bytes with big byte order, unsigned). -/
def bytesToU64BE (bs : List Nat) : Nat := bs.foldl (fun acc b => acc * 256 + b) 0

/-- Model of hash_to_u64: feed the UTF-8 bytes of str(part) and then one null
byte, for every part in order, into blake2b with digest size 8, and read the
8-byte digest big-endian. -/
def hash_to_u64 (parts : List StrInt) : Nat :=
  let h := parts.foldl (fun h part => (h.update (utf8 part.str)).update [0]) (Blake2bCtx.init 8)
  bytesToU64BE h.digest

/-- Model of calculate_profile_key: stat the file, then combine the device and
inode numbers as st_dev << 32 | st_ino.  A stat result of `none` models the
stat call raising: there is no handler here, the enumerating caller skips. -/
def calculate_profile_key (stat : String → Option (Nat × Nat)) (fpath : String) : Option Nat :=
  (stat fpath).map (fun s => s.1 <<< 32 ||| s.2)

/-- Model of calculate_scoped_profile_key: the Python guard
`if not container_id` treats both None and the empty string as absent. -/
def calculate_scoped_profile_key (stat : String → Option (Nat × Nat)) (fpath : String)
    (container_id : Option String) : Option Nat :=
  match container_id with
  | none => calculate_profile_key stat fpath
  | some cid =>
    if cid = "" then calculate_profile_key stat fpath
    else (stat fpath).map (fun s => hash_to_u64 [.s cid, .i s.1, .i s.2])

/-! ### ProcFsReader (`src/ebph/utils.py:103-133`) -/

/-- The exception classes caught at the OS-query boundaries
(`FileNotFoundError`, `ProcessLookupError`, `PermissionError` and their common
base `OSError`, which subsumes them all). -/
inductive OsError where
  | fileNotFound
  | processLookup
  | permission
  | osOther

/-- Decimal digits to the integer `int()` yields on them. -/
def digitsToNat (ds : List Char) : Nat := ds.foldl (fun acc c => acc * 10 + (c.toNat - 48)) 0

/-- Model of the re.match against the namespace-link pattern followed by int
of group 1: the target must start with the literal `cgroup:[`, then one or
more digits (taken greedily), then a closing bracket; anything may follow. -/
def parseCgroupLink (link : String) : Option Nat :=
  match link.data with
  | 'c' :: 'g' :: 'r' :: 'o' :: 'u' :: 'p' :: ':' :: '[' :: rest =>
    let ds := rest.takeWhile Char.isDigit
    let tail := rest.dropWhile Char.isDigit
    if ds ≠ [] ∧ tail.head? = some ']' then some (digitsToNat ds) else none
  | _ => none

/-- Model of read_cgroup_namespace_inode: the readlink outcome is passed in
(`Except.error` models the call raising one of the caught exception classes);
every error and every pattern mismatch becomes `none`. -/
def read_cgroup_namespace_inode (readlink : Except OsError String) : Option Nat :=
  match readlink with
  | .error _ => none
  | .ok link => parseCgroupLink link

/-- Characters Python `str.splitlines` treats as line boundaries. -/
def isLineBoundary (c : Char) : Bool :=
  c.toNat ∈ [10, 11, 12, 13, 28, 29, 30, 0x85, 0x2028, 0x2029]

/-- Worker for `str.splitlines`: a boundary always ends the current segment
(`\r\n` counts as one boundary); a final unterminated segment is kept only if
non-empty. -/
def pySplitlinesAux : List Char → List Char → List String
  | [], acc => if acc = [] then [] else [String.mk acc.reverse]
  | '\r' :: '\n' :: rest, acc => String.mk acc.reverse :: pySplitlinesAux rest []
  | c :: rest, acc =>
    if isLineBoundary c then String.mk acc.reverse :: pySplitlinesAux rest []
    else pySplitlinesAux rest (c :: acc)

/-- Python `str.splitlines()`. -/
def pySplitlines (s : String) : List String := pySplitlinesAux s.data []

/-- Split off everything before the first `:`; `none` when there is no colon. -/
def splitFirstColon : List Char → Option (List Char × List Char)
  | [] => none
  | c :: rest =>
    if c = ':' then some ([], rest)
    else (splitFirstColon rest).map (fun pr => (c :: pr.1, pr.2))

/-- Model of line.split on colon with maxsplit 2, under the requirement of
the caller that exactly 3 parts come back: `some (hierarchy, controllers,
path)` when the line has at least two colons (the path field keeps any
further colons unsplit), `none` otherwise. -/
def split2Colon (line : String) : Option (String × String × String) :=
  match splitFirstColon line.data with
  | none => none
  | some (a, r1) =>
    match splitFirstColon r1 with
    | none => none
    | some (b, r2) => some (String.mk a, String.mk b, String.mk r2)

/-- Characters Python `str.strip()` removes (`str.isspace`). -/
def pyIsSpace (c : Char) : Bool :=
  c.toNat ∈ [9, 10, 11, 12, 13, 28, 29, 30, 31, 32, 0x85, 0xa0, 0x1680,
    0x2000, 0x2001, 0x2002, 0x2003, 0x2004, 0x2005, 0x2006, 0x2007, 0x2008,
    0x2009, 0x200a, 0x2028, 0x2029, 0x202f, 0x205f, 0x3000]

/-- Python `str.strip()`. -/
def pyStrip (s : String) : String :=
  String.mk (((s.data.dropWhile pyIsSpace).reverse.dropWhile pyIsSpace).reverse)

/-- The `for line in content.splitlines()` loop of `read_cgroup_path`: skip
lines with fewer than two colons, return the first stripped non-empty path. -/
def scanCgroupLines : List String → Option String
  | [] => none
  | line :: rest =>
    match split2Colon line with
    | none => scanCgroupLines rest
    | some (_, _, path) =>
      let p := pyStrip path
      if p = "" then scanCgroupLines rest else some p

/-- Model of read_cgroup_path: the proc-file read outcome is passed in
(`none` = the read raised); the truthiness guard also rejects an empty file. -/
def read_cgroup_path (content : Option String) : Option String :=
  match content with
  | none => none
  | some c => if c = "" then none else scanCgroupLines (pySplitlines c)

/-! ### ContainerIdentifier (`src/ebph/utils.py:136-153`) -/

/-- A character of the class `[0-9a-f]` under `re.IGNORECASE`. -/
def isHexCI (c : Char) : Bool :=
  ('0' ≤ c && c ≤ '9') || ('a' ≤ c && c ≤ 'f') || ('A' ≤ c && c ≤ 'F')

/-- Try the alternation `[0-9a-f]{64}|[0-9a-f]{32}|[0-9a-f]{12}` (ignore-case)
at the head of `cs`: alternatives in written order, each branch exactly `n`
class characters.  Returns the matched text and the remainder. -/
def hexAltAt (cs : List Char) : Option (String × List Char) :=
  let tryLen := fun (n : Nat) =>
    let pre := cs.take n
    if pre.length = n && pre.all isHexCI then some (String.mk pre, cs.drop n) else none
  match tryLen 64 with
  | some r => some r
  | none =>
    match tryLen 32 with
    | some r => some r
    | none => tryLen 12

/-- Scan of re.findall: at each position try the alternation; on a match emit
it and continue after it, else advance one character.  Fuel-based structural
recursion (each step consumes at least one character, so `cs.length` fuel is
enough). -/
def findallHexAux : Nat → List Char → List String
  | 0, _ => []
  | fuel + 1, cs =>
    match cs with
    | [] => []
    | _ :: tail =>
      match hexAltAt cs with
      | some (m, rest) => m :: findallHexAux fuel rest
      | none => findallHexAux fuel tail

/-- Model of the re.findall over the whole string with the hex-run
alternation pattern, ignore-case, as derive_container_id runs it. -/
def findallHex (cs : List Char) : List String := findallHexAux cs.length cs

/-- A character of the class `[0-9a-f-]` under `re.IGNORECASE`. -/
def isKubeChar (c : Char) : Bool := isHexCI c || c = '-'

/-- Try `pod([0-9a-f-]{32,36})` (ignore-case) at the head of `cs`: the literal
`pod` case-insensitively, then greedily up to 36 class characters, at least
32; nothing follows the counted class in the pattern, so the greedy match is
`min(run, 36)` characters.  Returns group 1. -/
def kubeAt (cs : List Char) : Option String :=
  match cs with
  | p :: o :: d :: rest =>
    if p.toLower = 'p' && o.toLower = 'o' && d.toLower = 'd' then
      let g := (rest.takeWhile isKubeChar).take 36
      if 32 ≤ g.length then some (String.mk g) else none
    else none
  | _ => none

/-- Scan of re.search for the pod marker: leftmost position wins. -/
def kubeSearchAux : Nat → List Char → Option String
  | 0, _ => none
  | fuel + 1, cs =>
    match cs with
    | [] => none
    | _ :: tail =>
      match kubeAt cs with
      | some g => some g
      | none => kubeSearchAux fuel tail

/-- Model of the re.search for the pod-marker pattern, ignore-case, group 1. -/
def kubeSearch (cs : List Char) : Option String := kubeSearchAux cs.length cs

/-- ASCII lower-casing; both regex matches it is applied to consist only of
`[0-9a-fA-F-]`, on which Python `str.lower()` agrees with ASCII lowering. -/
def asciiLower (s : String) : String := String.mk (s.data.map Char.toLower)

/-- Replacement of underscores by hyphens on the pod-marker group. -/
def underscoreToHyphen (s : String) : String :=
  String.mk (s.data.map (fun c => if c = '_' then '-' else c))

/-- Model of the rsplit of cgroup_path on the final slash: everything after
the last slash, or the whole string when there is none. -/
def lastSegment (p : String) : String :=
  String.mk ((p.data.reverse.takeWhile (fun c => c ≠ '/')).reverse)

/-- Model of derive_container_id.  The heuristic chain
of the source, in order: last hex-run match, pod marker, last path segment,
synthesized `cgroupns-` id.  `pid1_ns_inode` stands for the
`read_cgroup_namespace_inode(1)` call made at the final step (passed in, as
the spec allows).  Python truthiness: an empty path and a zero inode count as
absent. -/
def derive_container_id (cgroup_path : Option String) (cgroup_ns_inode : Option Nat)
    (pid1_ns_inode : Option Nat) : Option String :=
  let fromPath : Option String :=
    match cgroup_path with
    | none => none
    | some p =>
      if p = "" then none
      else
        match (findallHex p.data).getLast? with
        | some m => some (asciiLower m)
        | none =>
          match kubeSearch p.data with
          | some g => some (asciiLower (underscoreToHyphen g))
          | none =>
            let suffix := lastSegment p
            if suffix ≠ "" ∧ suffix ∉ ["", "/", "user.slice", "system.slice", "init.scope"]
            then some suffix else none
  match fromPath with
  | some cid => some cid
  | none =>
    match cgroup_ns_inode with
    | none => none
    | some n =>
      if n ≠ 0 ∧ pid1_ns_inode ≠ some n then some ("cgroupns-" ++ Nat.repr n) else none

/-! ### Specification-side definitions used by the claim statements -/

/-- Message hashed by `hash_to_u64`, written the way the spec describes it:
the UTF-8 text of every part followed by one null byte, parts in order,
the terminator present after the last part too. -/
def encodeParts (parts : List StrInt) : List Nat :=
  (parts.map (fun p => utf8 p.str ++ [0])).flatten

/-- Successful shape of the namespace-symlink target: the literal prefix
`cgroup:[`, one or more digits, a closing bracket, arbitrary trailing text
(the source anchors only at the start). -/
def matchesCgroupPattern (cs : List Char) : Prop :=
  ∃ ds rest, cs = "cgroup:[".data ++ ds ++ ']' :: rest ∧ ds ≠ [] ∧ ∀ c ∈ ds, c.isDigit

/-- Path one membership line contributes: the stripped third field when the
line has at least two colons and the stripped field is non-empty. -/
def usableCgroupLine (line : String) : Option String :=
  match split2Colon line with
  | none => none
  | some (_, _, path) =>
    let p := pyStrip path
    if p = "" then none else some p

/-! ### Helper lemmas -/

theorem wordToBytesLE_length (w : Nat) : (wordToBytesLE w).length = 8 := by
  simp [wordToBytesLE]

theorem flatten_map_wordToBytesLE_length (l : List Nat) :
    ((l.map wordToBytesLE).flatten).length = 8 * l.length := by
  induction l with
  | nil => simp
  | cons a t ih => simp [ih, wordToBytesLE_length]; omega

theorem blakeCompress_length (h block : List Nat) (t : Nat) (last : Bool) :
    (blakeCompress h block t last).length = 8 := by
  simp [blakeCompress]

theorem blakeLoop_length (fuel : Nat) : ∀ (h : List Nat) (t : Nat) (msg : List Nat),
    (blakeLoop fuel h t msg).length = 8 := by
  induction fuel with
  | zero => intro h t msg; simp [blakeLoop, blakeCompress_length]
  | succ n ih =>
    intro h t msg
    by_cases hm : msg.length ≤ 128 <;> simp [blakeLoop, hm, blakeCompress_length, ih]

theorem blake2b8_length (msg : List Nat) : (blake2b 8 msg).length = 8 := by
  simp only [blake2b]
  rw [List.length_take, flatten_map_wordToBytesLE_length, blakeLoop_length]
  omega

theorem hashFoldBuf (parts : List StrInt) (ds : Nat) (buf : List Nat) :
    parts.foldl (fun h part => (h.update (utf8 part.str)).update [0]) (Blake2bCtx.mk ds buf)
      = Blake2bCtx.mk ds (buf ++ encodeParts parts) := by
  induction parts generalizing buf with
  | nil => simp [encodeParts]
  | cons p ps ih =>
    rw [List.foldl_cons]
    have hstep : ((Blake2bCtx.mk ds buf).update (utf8 p.str)).update [0]
        = Blake2bCtx.mk ds ((buf ++ utf8 p.str) ++ [0]) := rfl
    rw [hstep, ih]
    simp [encodeParts, List.append_assoc]

theorem parseCgroupLink_sound (link : String) (n : Nat)
    (h : parseCgroupLink link = some n) : matchesCgroupPattern link.data := by
  unfold parseCgroupLink at h
  split at h
  case h_2 => exact absurd h (by simp)
  case h_1 rest heq =>
    by_cases hcond : rest.takeWhile Char.isDigit ≠ [] ∧
        (rest.dropWhile Char.isDigit).head? = some ']'
    · obtain ⟨hne, hhead⟩ := hcond
      cases hdrop : rest.dropWhile Char.isDigit with
      | nil => rw [hdrop] at hhead; exact absurd hhead (by simp)
      | cons c2 r2 =>
        rw [hdrop] at hhead
        have hc2 : c2 = ']' := by simpa using hhead
        subst hc2
        refine ⟨rest.takeWhile Char.isDigit, r2, ?_, hne,
          fun c hc => List.mem_takeWhile_imp hc⟩
        rw [heq]
        have hcg : ("cgroup:[" : String).data = ['c', 'g', 'r', 'o', 'u', 'p', ':', '['] := rfl
        rw [hcg]
        simp only [List.cons_append, List.nil_append, List.cons.injEq, true_and]
        conv_lhs => rw [← List.takeWhile_append_dropWhile (p := Char.isDigit) (l := rest)]
        rw [hdrop]
    · simp only [hcond, if_neg, ite_false] at h
      exact absurd h (by simp [hcond])

theorem splitFirstColon_append (xs r : List Char) (h : ∀ c ∈ xs, c ≠ ':') :
    splitFirstColon (xs ++ ':' :: r) = some (xs, r) := by
  induction xs with
  | nil => simp [splitFirstColon]
  | cons x t ih =>
    have hx : x ≠ ':' := h x (by simp)
    have ht : ∀ c ∈ t, c ≠ ':' := fun c hc => h c (by simp [hc])
    simp [splitFirstColon, hx, ih ht]

theorem split2Colon_append (a b c : String)
    (ha : ∀ ch ∈ a.data, ch ≠ ':') (hb : ∀ ch ∈ b.data, ch ≠ ':') :
    split2Colon (a ++ ":" ++ b ++ ":" ++ c) = some (a, b, c) := by
  have hdata : (a ++ ":" ++ b ++ ":" ++ c).data
      = a.data ++ ':' :: (b.data ++ ':' :: c.data) := by
    simp [String.data_append]
  unfold split2Colon
  rw [hdata, splitFirstColon_append a.data _ ha]
  simp only []
  rw [splitFirstColon_append b.data c.data hb]

theorem scanCgroupLines_eq (ls : List String) :
    scanCgroupLines ls = (ls.filterMap usableCgroupLine).head? := by
  induction ls with
  | nil => rfl
  | cons line rest ih =>
    cases hs : split2Colon line with
    | none => simp [scanCgroupLines, List.filterMap_cons, usableCgroupLine, hs, ih]
    | some t =>
      obtain ⟨a, b, path⟩ := t
      by_cases hp : pyStrip path = "" <;>
        simp [scanCgroupLines, List.filterMap_cons, usableCgroupLine, hs, hp, ih]

/-! ### Claim theorems -/

/-- C1: for every file path whose filesystem status yields device id `d` and
inode number `i`, `calculate_profile_key` returns exactly `d <<< 32 ||| i`
(Python integers are unbounded, so no truncation occurs). -/
theorem calculate_profile_key_spec (stat : String → Option (Nat × Nat)) (fpath : String)
    (d i : Nat) (h : stat fpath = some (d, i)) :
    calculate_profile_key stat fpath = some (d <<< 32 ||| i) := by
  simp [calculate_profile_key, h]

theorem calculate_profile_key_spec_witness :
    (fun _ : String => some ((2, 3) : Nat × Nat)) "/bin/sh" = some ((2, 3) : Nat × Nat) ∧
    calculate_profile_key (fun _ => some (2, 3)) "/bin/sh" = some (2 <<< 32 ||| 3) :=
  ⟨rfl, calculate_profile_key_spec _ "/bin/sh" 2 3 rfl⟩

/-- C4: with an absent container id the scoped key is exactly the unscoped
key. -/
theorem calculate_scoped_profile_key_none (stat : String → Option (Nat × Nat)) (fpath : String) :
    calculate_scoped_profile_key stat fpath none = calculate_profile_key stat fpath := rfl

/-- C10: an empty-string container id is falsy in Python, so it is treated
exactly like an absent one and no hash is computed. -/
theorem calculate_scoped_profile_key_empty (stat : String → Option (Nat × Nat)) (fpath : String) :
    calculate_scoped_profile_key stat fpath (some "") = calculate_profile_key stat fpath := by
  simp [calculate_scoped_profile_key]

/-- C6 counterexample: a present namespace inode 0 differs from a pid-1 inode
of 1, yet the code returns `none` rather than a synthesized id, because
`if cgroup_ns_inode` treats the integer 0 as absent. -/
theorem derive_container_id_ns_zero_counterexample :
    (0 : Nat) ≠ 1 ∧ derive_container_id none (some 0) (some 1) ≠ some "cgroupns-0" := by
  constructor
  · decide
  · decide

/-- C6 (amended): for every absent cgroup path and every present **nonzero**
namespace inode `n` that differs from the pid-1 inode, the result is the
literal `cgroupns-` followed by the decimal inode number. -/
theorem derive_container_id_ns_amended (n : Nat) (pid1 : Option Nat)
    (h0 : n ≠ 0) (h1 : pid1 ≠ some n) :
    derive_container_id none (some n) pid1 = some ("cgroupns-" ++ Nat.repr n) := by
  simp [derive_container_id, h0, h1]

theorem derive_container_id_ns_amended_witness :
    (999999 : Nat) ≠ 0 ∧ (some 4026531835 : Option Nat) ≠ some 999999 ∧
    derive_container_id none (some 999999) (some 4026531835) = some "cgroupns-999999" :=
  ⟨by decide, by decide,
    (derive_container_id_ns_amended 999999 (some 4026531835) (by decide) (by decide)).trans
      (by decide)⟩

/-- C2 counterexample: on the quoted Kubernetes path the code does **not**
return the pod UID: the hex-run alternation of the first step already matches
the 12-hex-character run `def012345678` inside the UID, so the pod-marker
step is never reached. -/
theorem derive_container_id_kube_counterexample :
    derive_container_id
        (some "/kubepods/besteffort/podAB12cd34-1234-5678-9abc-def012345678/container1")
        none none
      ≠ some "ab12cd34-1234-5678-9abc-def012345678" := by
  decide

/-- C2 (amended): on the quoted path the result is `def012345678`, the last
(and only) 12-hex-character match of the first step; the pod-marker pattern
does match the UID (group `AB12cd34-1234-5678-9abc-def012345678`, which
lower-cased is the value the claim expected), but it is shadowed by the
hex-run step. -/
theorem derive_container_id_kube_amended :
    derive_container_id
        (some "/kubepods/besteffort/podAB12cd34-1234-5678-9abc-def012345678/container1")
        none none
      = some "def012345678" ∧
    kubeSearch ("/kubepods/besteffort/podAB12cd34-1234-5678-9abc-def012345678/container1"
        : String).data
      = some "AB12cd34-1234-5678-9abc-def012345678" ∧
    findallHex ("/kubepods/besteffort/podAB12cd34-1234-5678-9abc-def012345678/container1"
        : String).data
      = ["def012345678"] := by
  refine ⟨by decide, by decide, by decide⟩

/-- C3 counterexample: the quoted docker id contains only 60 hex characters,
not 64; the findall alternation splits it into a 32-character match and two
12-character matches, and the code returns the last of those, not the whole
id. -/
theorem derive_container_id_docker_counterexample :
    derive_container_id
        (some "/docker/abcdef0123456789abcdef0123456789abcdef0123456789abcdef012345")
        none none
      ≠ some "abcdef0123456789abcdef0123456789abcdef0123456789abcdef012345" := by
  decide

/-- C3 (amended): whenever the hex-run alternation produces at least one
match in a present cgroup path, the result is the last match, lower-cased,
regardless of the namespace inode.  On the quoted 60-hex-character input the
matches are a 32-character and two 12-character pieces and the result is
`6789abcdef01`; on a path holding a genuine 64-hex-character id the whole id
is returned. -/
theorem derive_container_id_last_hex_match :
    (∀ (p : String) (ns pid1 : Option Nat), findallHex p.data ≠ [] →
      ∃ m, (findallHex p.data).getLast? = some m ∧
        derive_container_id (some p) ns pid1 = some (asciiLower m)) ∧
    derive_container_id
        (some "/docker/abcdef0123456789abcdef0123456789abcdef0123456789abcdef012345")
        none none
      = some "6789abcdef01" ∧
    derive_container_id
        (some "/docker/abcdef0123456789abcdef0123456789abcdef0123456789abcdef0123456789")
        none none
      = some "abcdef0123456789abcdef0123456789abcdef0123456789abcdef0123456789" := by
  refine ⟨?_, by decide, by decide⟩
  intro p ns pid1 h
  by_cases hp : p = ""
  · subst hp; exact absurd rfl h
  · obtain ⟨m, hm⟩ : ∃ m, (findallHex p.data).getLast? = some m := by
      cases hlast : (findallHex p.data).getLast? with
      | some m => exact ⟨m, rfl⟩
      | none => exact absurd (List.getLast?_eq_none_iff.mp hlast) h
    exact ⟨m, hm, by simp [derive_container_id, hp, hm]⟩

theorem derive_container_id_last_hex_match_witness :
    findallHex ("/docker/deadbeefdeadbeef" : String).data ≠ [] ∧
    ∃ m, (findallHex ("/docker/deadbeefdeadbeef" : String).data).getLast? = some m ∧
      derive_container_id (some "/docker/deadbeefdeadbeef") none none = some (asciiLower m) :=
  ⟨by decide, derive_container_id_last_hex_match.1 "/docker/deadbeefdeadbeef" none none (by decide)⟩

/-- C9: when the first two heuristic steps find nothing, the final
`/`-delimited segment is accepted as the container id exactly when it is not
empty and not one of the excluded names; a rejected segment (with an absent
namespace inode) yields an absent result, as for `/user.slice`. -/
theorem derive_container_id_suffix :
    (∀ (p : String) (ns pid1 : Option Nat), p ≠ "" →
      findallHex p.data = [] → kubeSearch p.data = none →
      lastSegment p ∉ ["", "/", "user.slice", "system.slice", "init.scope"] →
      derive_container_id (some p) ns pid1 = some (lastSegment p)) ∧
    (∀ (p : String) (pid1 : Option Nat), p ≠ "" →
      findallHex p.data = [] → kubeSearch p.data = none →
      lastSegment p ∈ ["", "/", "user.slice", "system.slice", "init.scope"] →
      derive_container_id (some p) none pid1 = none) ∧
    derive_container_id (some "/user.slice") none none = none := by
  refine ⟨?_, ?_, by decide⟩
  · intro p ns pid1 hp hfind hkube hnm
    have hne : lastSegment p ≠ "" := by
      intro he
      exact hnm (by simp [he])
    simp [derive_container_id, hp, hfind, hkube, hne, hnm]
  · intro p pid1 hp hfind hkube hmem
    simp only [List.mem_cons, List.mem_singleton, List.not_mem_nil, or_false] at hmem
    rcases hmem with h | h | h | h | h <;>
      simp [derive_container_id, hp, hfind, hkube] <;> rw [h] <;> decide

theorem derive_container_id_suffix_witness :
    ("/myapp" : String) ≠ "" ∧
    findallHex ("/myapp" : String).data = [] ∧
    kubeSearch ("/myapp" : String).data = none ∧
    lastSegment "/myapp" ∉ ["", "/", "user.slice", "system.slice", "init.scope"] ∧
    derive_container_id (some "/myapp") none none = some (lastSegment "/myapp") :=
  ⟨by decide, by decide, by decide, by decide,
    derive_container_id_suffix.1 "/myapp" none none (by decide) (by decide) (by decide) (by decide)⟩

/-- C5: `hash_to_u64` equals the big-endian interpretation of the 8-byte
BLAKE2b digest of the UTF-8 text of the parts with a null byte written after
every part including the last; consequently the two tuples `("ab", "c")` and
`("a", "bc")` hash differently. -/
theorem hash_to_u64_spec :
    (∀ parts : List StrInt,
      hash_to_u64 parts = bytesToU64BE (blake2b 8 (encodeParts parts)) ∧
      (blake2b 8 (encodeParts parts)).length = 8) ∧
    hash_to_u64 [.s "ab", .s "c"] ≠ hash_to_u64 [.s "a", .s "bc"] := by
  refine ⟨fun parts => ⟨?_, blake2b8_length _⟩, by decide⟩
  simp [hash_to_u64, Blake2bCtx.init, Blake2bCtx.digest, hashFoldBuf]

/-- C7: `read_cgroup_namespace_inode` is total over the modelled outcomes: a
raised OS error of any caught class yields an absent value, and so does any
symlink target that fails to match the `cgroup:[digits]` shape. -/
theorem read_cgroup_namespace_inode_no_raise :
    (∀ e : OsError, read_cgroup_namespace_inode (.error e) = none) ∧
    (∀ link : String, ¬ matchesCgroupPattern link.data →
      read_cgroup_namespace_inode (.ok link) = none) := by
  refine ⟨fun e => rfl, fun link h => ?_⟩
  cases hp : parseCgroupLink link with
  | none => exact hp
  | some n => exact absurd (parseCgroupLink_sound link n hp) h

theorem read_cgroup_namespace_inode_no_raise_witness :
    read_cgroup_namespace_inode (.error .fileNotFound) = none ∧
    read_cgroup_namespace_inode (.ok "x") = none := by
  refine ⟨read_cgroup_namespace_inode_no_raise.1 .fileNotFound,
    read_cgroup_namespace_inode_no_raise.2 "x" ?_⟩
  rintro ⟨ds, rest, heq, hne, hall⟩
  have hx : ("x" : String).data = ['x'] := rfl
  have hc : ("cgroup:[" : String).data = ['c', 'g', 'r', 'o', 'u', 'p', ':', '['] := rfl
  rw [hx, hc] at heq
  have hlen := congrArg List.length heq
  simp [List.length_append] at hlen

/-- C8: `read_cgroup_path` returns the stripped path field of the first line
(in file order) whose path field is non-empty after stripping, where a line
splits into three fields on its first two colons only (the path field keeps
any further colons); an unreadable file yields an absent result. -/
theorem read_cgroup_path_spec :
    (∀ content : String,
      read_cgroup_path (some content)
        = ((pySplitlines content).filterMap usableCgroupLine).head?) ∧
    read_cgroup_path none = none ∧
    (∀ a b c : String, (∀ ch ∈ a.data, ch ≠ ':') → (∀ ch ∈ b.data, ch ≠ ':') →
      split2Colon (a ++ ":" ++ b ++ ":" ++ c) = some (a, b, c)) := by
  refine ⟨fun content => ?_, rfl, split2Colon_append⟩
  by_cases hc : content = ""
  · subst hc; rfl
  · simp [read_cgroup_path, hc, scanCgroupLines_eq]

theorem read_cgroup_path_spec_witness :
    (∀ ch ∈ ("7" : String).data, ch ≠ ':') ∧
    (∀ ch ∈ ("cpuset" : String).data, ch ≠ ':') ∧
    split2Colon ("7" ++ ":" ++ "cpuset" ++ ":" ++ "/docker/x:y")
      = some ("7", "cpuset", "/docker/x:y") :=
  ⟨by decide, by decide,
    read_cgroup_path_spec.2.2 "7" "cpuset" "/docker/x:y" (by decide) (by decide)⟩

end Ebph
